import Mathlib

/-!
Verification of the storage/CDN subsystem of the LMS-SCORM repository.

This file shallowly embeds the parts of the source relevant to the frozen
claims:
  - the key sanitization performed by `LocalStorageAdapter.uploadFile` and
    `LocalStorageAdapter.uploadBuffer` (`destinationKey.replace(/\.\./g, '')
    .replace(/^\/+/, '')`), and the absence of sanitization in
    `LocalStorageAdapter.deleteFile`;
  - the provider selection / fallback logic of `StorageFactory.createAdapter`
    together with the configuration validation of its CDN constructors;
  - the event-loop interleaving semantics of `StorageFactory.getAdapter`
    (singleton with an in-flight initialization promise);
  - `CdnService.purgeCache` and the `purgeCdnCache` methods of the adapters;
  - `AssetService.getStorage` (lazy private caching of the adapter).

Strings are modelled as Lean `String`/`List Char`; JavaScript truthiness of
`string | undefined` values is modelled explicitly.
-/

namespace LMS

/-- One pass of the JavaScript global replace `replace(/\.\./g, '')`:
scan left to right, removing each non-overlapping occurrence of `..`. -/
def removeDotDot : List Char → List Char
  | [] => []
  | [c] => [c]
  | a :: b :: rest =>
    if a = '.' ∧ b = '.' then removeDotDot rest
    else a :: removeDotDot (b :: rest)

/-- The JavaScript replace `replace(/^\/+/, '')`: strip the leading run of
slashes. -/
def dropLeadingSlashes (l : List Char) : List Char :=
  l.dropWhile (fun c => c = '/')

/-- Key sanitization as performed on the write paths of the local adapter:
`destinationKey.replace(/\.\./g, '').replace(/^\/+/, '')`
(LocalStorageAdapter.uploadFile line 723, uploadBuffer line 755). -/
def sanitizeKey (l : List Char) : List Char :=
  dropLeadingSlashes (removeDotDot l)

/-- String-level wrapper of `sanitizeKey`. -/
def sanitizeKeyStr (s : String) : String :=
  String.mk (sanitizeKey s.data)

/-- Whether a character list contains two adjacent dots (an occurrence of
the substring `..`). -/
def hasDotDot : List Char → Bool
  | a :: b :: rest =>
    if a = '.' ∧ b = '.' then true else hasDotDot (b :: rest)
  | _ => false

/-- Split a character list into its slash-delimited segments (the segments
`path.join` normalization operates on). -/
def splitSeg : List Char → List (List Char)
  | [] => [[]]
  | c :: rest =>
    if c = '/' then [] :: splitSeg rest
    else
      match splitSeg rest with
      | [] => [[c]]
      | s :: ss => (c :: s) :: ss

/-- Walk the segments of a relative path the way path normalization does:
a `..` segment at depth zero climbs out of the base directory. Returns
`true` when the path escapes the directory it is joined to. -/
def escapeSteps : Nat → List (List Char) → Bool
  | _, [] => false
  | d, seg :: rest =>
    if seg = ['.', '.'] then
      match d with
      | 0 => true
      | e + 1 => escapeSteps e rest
    else if seg = [] ∨ seg = ['.'] then escapeSteps d rest
    else escapeSteps (d + 1) rest

/-- Whether joining the relative key `l` to a base directory can reach a
path outside that directory. -/
def escapesRoot (l : List Char) : Bool :=
  escapeSteps 0 (splitSeg l)

/-- The key actually joined to the uploads root by
`LocalStorageAdapter.uploadFile` (line 723-724): the sanitized key. -/
def uploadFileKeyUsed (destinationKey : String) : String :=
  sanitizeKeyStr destinationKey

/-- The key actually joined to the uploads root by
`LocalStorageAdapter.uploadBuffer` (line 755-756): the sanitized key. -/
def uploadBufferKeyUsed (destinationKey : String) : String :=
  sanitizeKeyStr destinationKey

/-- The key actually joined to the uploads root by
`LocalStorageAdapter.deleteFile` (line 778): the raw key, unsanitized. -/
def deleteFileKeyUsed (key : String) : String :=
  key

/-- A concrete traversal key. -/
def dotdotDeleteKey : String :=
  "../../secret"

/-- JavaScript falsiness of a `string | undefined` environment value:
`!value` is true when the variable is unset or the empty string. -/
def falsy : Option String → Bool
  | none => true
  | some s => s = ""

/-- The environment variables read by `StorageFactory`. -/
structure Env where
  STORAGE_PROVIDER : Option String
  CLOUDFLARE_ACCOUNT_ID : Option String
  CLOUDFLARE_R2_ACCESS_KEY_ID : Option String
  CLOUDFLARE_R2_SECRET_ACCESS_KEY : Option String
  CLOUDFLARE_R2_BUCKET_NAME : Option String
  CLOUDFLARE_R2_CDN_DOMAIN : Option String
  AWS_REGION : Option String
  AWS_ACCESS_KEY_ID : Option String
  AWS_SECRET_ACCESS_KEY : Option String
  AWS_S3_BUCKET_NAME : Option String
  AWS_CLOUDFRONT_DOMAIN : Option String
  AWS_CLOUDFRONT_DISTRIBUTION_ID : Option String
deriving DecidableEq

/-- The selected provider: `process.env.STORAGE_PROVIDER || 'local'`
(StorageFactory.createAdapter line 43). -/
def provider (env : Env) : String :=
  if falsy env.STORAGE_PROVIDER then "local" else env.STORAGE_PROVIDER.getD "local"

/-- The configuration record built by `createCloudFlareR2Adapter`
(lines 70-76), in source order. -/
def r2Config (env : Env) : List (String × Option String) :=
  [("accountId", env.CLOUDFLARE_ACCOUNT_ID),
   ("accessKeyId", env.CLOUDFLARE_R2_ACCESS_KEY_ID),
   ("secretAccessKey", env.CLOUDFLARE_R2_SECRET_ACCESS_KEY),
   ("bucketName", env.CLOUDFLARE_R2_BUCKET_NAME),
   ("cdnDomain", env.CLOUDFLARE_R2_CDN_DOMAIN)]

/-- The required configuration record checked by
`createS3CloudFrontAdapter` (lines 116-122); the distribution id is
deliberately not required. -/
def s3RequiredConfig (env : Env) : List (String × Option String) :=
  [("region", env.AWS_REGION),
   ("accessKeyId", env.AWS_ACCESS_KEY_ID),
   ("secretAccessKey", env.AWS_SECRET_ACCESS_KEY),
   ("bucketName", env.AWS_S3_BUCKET_NAME),
   ("cloudFrontDomain", env.AWS_CLOUDFRONT_DOMAIN)]

/-- The names of the missing fields:
`Object.entries(config).filter(([_, value]) => !value).map(([key]) => key)`
(lines 79-81 and 124-126). -/
def missingConfig (cfg : List (String × Option String)) : List String :=
  (cfg.filter (fun p => falsy p.2)).map (fun p => p.1)

/-- The concrete adapter classes. -/
inductive AdapterKind where
  | localFs
  | cloudflareR2
  | s3CloudFront
deriving DecidableEq, Repr

/-- An error thrown inside `createAdapter`'s try block. -/
inductive BuildErr where
  | missingConfigErr (fields : List String)
  | healthCheckFailed
deriving DecidableEq, Repr

/-- CloudFlare R2 construction (StorageFactory.createCloudFlareR2Adapter,
lines 69-100): throws listing the missing fields before any network call;
otherwise runs the network health check (its outcome is the `healthy`
oracle) and throws when it fails. The second component records whether the
health check (a network call) was reached. -/
def createCloudFlareR2Adapter (env : Env) (healthy : Bool) :
    Except BuildErr AdapterKind × Bool :=
  let missing := missingConfig (r2Config env)
  if missing = [] then
    (if healthy then Except.ok AdapterKind.cloudflareR2
     else Except.error BuildErr.healthCheckFailed, true)
  else
    (Except.error (BuildErr.missingConfigErr missing), false)

/-- AWS S3 + CloudFront construction
(StorageFactory.createS3CloudFrontAdapter, lines 105-145). -/
def createS3CloudFrontAdapter (env : Env) (healthy : Bool) :
    Except BuildErr AdapterKind × Bool :=
  let missing := missingConfig (s3RequiredConfig env)
  if missing = [] then
    (if healthy then Except.ok AdapterKind.s3CloudFront
     else Except.error BuildErr.healthCheckFailed, true)
  else
    (Except.error (BuildErr.missingConfigErr missing), false)

/-- Provider selection with graceful fallback
(StorageFactory.createAdapter, lines 42-64): the switch on the provider
string, with every construction error caught and replaced by the local
adapter. Returns (adapter, whether a network health check was attempted,
the internal construction error that was caught, if any). The function is
total: `getAdapter` never raises to its caller. -/
def createAdapter (env : Env) (r2healthy s3healthy : Bool) :
    AdapterKind × Bool × Option BuildErr :=
  if provider env = "cloudflare-r2" then
    match createCloudFlareR2Adapter env r2healthy with
    | (Except.ok k, hc) => (k, hc, none)
    | (Except.error e, hc) => (AdapterKind.localFs, hc, some e)
  else if provider env = "s3-cloudfront" then
    match createS3CloudFrontAdapter env s3healthy with
    | (Except.ok k, hc) => (k, hc, none)
    | (Except.error e, hc) => (AdapterKind.localFs, hc, some e)
  else
    (AdapterKind.localFs, false, none)

/-- An environment selecting CloudFlare R2 with no R2 configuration. -/
def envMissingR2 : Env :=
  ⟨some "cloudflare-r2", none, none, none, none, none,
   none, none, none, none, none, none⟩

/-- An environment selecting S3/CloudFront with no AWS configuration. -/
def envMissingS3 : Env :=
  ⟨some "s3-cloudfront", none, none, none, none, none,
   none, none, none, none, none, none⟩

/-- An environment whose provider selector is a typo. -/
def envTypoProvider : Env :=
  ⟨some "cloudfare-r2", none, none, none, none, none,
   none, none, none, none, none, none⟩

/-- The `type` tag of the local adapter (part_002 line 685). -/
def LocalAdapterType : String := "local"

/-- The `cdnEnabled` flag of the local adapter (part_002 line 686). -/
def LocalAdapterCdnEnabled : Bool := false

/-- The local adapter's `purgeCdnCache` (part_002 lines 842-845): a no-op
returning true. -/
def localPurgeCdnCache (keys : List String) : Bool := true

/-- JavaScript truthiness of an optional string option (an empty string is
falsy). -/
def truthyStr : Option String → Bool
  | none => false
  | some s => ¬ s = ""

/-- The guard `options.keys && options.keys.length > 0`
(cdnService.ts line 61). -/
def keysProvided : Option (List String) → Bool
  | none => false
  | some ks => ks.length > 0

/-- The `CdnPurgeOptions` request shape (cdnService.ts lines 10-19). -/
structure CdnPurgeOptions where
  purgeAll : Bool
  keys : Option (List String)
  courseId : Option String
  pattern : Option String
deriving DecidableEq, Repr

/-- The `CdnPurgeResult` shape (cdnService.ts lines 21-26). -/
structure CdnPurgeResult where
  success : Bool
  purgedKeys : List String
  message : String
  cdnProvider : Option String
deriving DecidableEq, Repr

/-- Outcome of an adapter's `purgeCdnCache` call: a returned boolean or a
thrown exception. -/
inductive PurgeOutcome where
  | ok (b : Bool)
  | thrown (msg : String)
deriving DecidableEq, Repr

/-- The strategy-selection if-chain of `CdnService.purgeCache`
(cdnService.ts lines 49-70): global wildcard, then courseId-derived keys
(the result of `getCourseAssetKeys`, supplied as the `courseKeys`
collaborator), then the pattern (via `getKeysByPattern`, which returns the
pattern itself, lines 195-199), then a non-empty explicit key list; `none`
means no strategy applied ("No purge target specified"). -/
def resolvePurgeKeys (courseKeys : String → List String)
    (o : CdnPurgeOptions) : Option (List String) :=
  if o.purgeAll then some ["*"]
  else if truthyStr o.courseId then some (courseKeys (o.courseId.getD ""))
  else if truthyStr o.pattern then some [(o.pattern.getD "")]
  else if keysProvided o.keys then some (o.keys.getD [])
  else none

/-- `CdnService.purgeCache` (cdnService.ts lines 37-109). Parameters model
the collaborators: the active adapter's `cdnEnabled` and `type`, the
database-backed course-key resolution, and the adapter's `purgeCdnCache`.
Returns the `CdnPurgeResult` together with the key list actually passed to
`purgeCdnCache` (`none` when the adapter purge was never called). -/
def purgeCache (cdnEnabled : Bool) (adapterType : String)
    (courseKeys : String → List String)
    (purge : List String → PurgeOutcome)
    (o : CdnPurgeOptions) : CdnPurgeResult × Option (List String) :=
  if cdnEnabled = false then
    ({ success := true, purgedKeys := [],
       message := "CDN not enabled, no cache to purge",
       cdnProvider := none }, none)
  else
    match resolvePurgeKeys courseKeys o with
    | none =>
      ({ success := false, purgedKeys := [],
         message := "No purge target specified", cdnProvider := none }, none)
    | some keysToPurge =>
      if keysToPurge.length = 0 then
        ({ success := true, purgedKeys := [],
           message := "No keys found to purge", cdnProvider := none }, none)
      else
        match purge keysToPurge with
        | PurgeOutcome.ok true =>
          ({ success := true, purgedKeys := keysToPurge,
             message := "Successfully purged items from CDN cache",
             cdnProvider := some adapterType }, some keysToPurge)
        | PurgeOutcome.ok false =>
          ({ success := false, purgedKeys := [],
             message := "CDN cache purge failed",
             cdnProvider := some adapterType }, some keysToPurge)
        | PurgeOutcome.thrown m =>
          ({ success := false, purgedKeys := [],
             message := m, cdnProvider := some adapterType }, some keysToPurge)

/-- `S3CloudFrontAdapter.purgeCdnCache` (cacheService.ts lines 508-540):
inside a try/catch, returns false when no distribution id is configured;
otherwise issues the invalidation (`send`, over the keys converted to
leading-slash paths) and returns false when it throws, true otherwise. -/
def s3PurgeCdnCache (cloudFrontDistributionId : Option String)
    (send : List String → Except String Unit) (keys : List String) : Bool :=
  if falsy cloudFrontDistributionId then false
  else
    match send (keys.map (fun k => "/" ++ k)) with
    | Except.error _ => false
    | Except.ok _ => true

/-- `CloudFlareR2Adapter.purgeCdnCache` (part_015 lines 229-266): inside a
try/catch, returns false when the zone id or API token is missing;
otherwise the purge request either throws (false), returns a non-ok
response (false), or succeeds (true). -/
def r2PurgeCdnCache (zoneId apiToken : Option String)
    (fetchResult : Except String Bool) (keys : List String) : Bool :=
  if falsy zoneId ∨ falsy apiToken then false
  else
    match fetchResult with
    | Except.error _ => false
    | Except.ok responseOk => responseOk

/-- A purge request with an explicit but empty key list and nothing else. -/
def emptyKeysRequest : CdnPurgeOptions :=
  { purgeAll := false, keys := some [], courseId := none, pattern := none }

/-- The adapter reference used by `AssetService.getStorage` (part_002
lines 353-364): the service keeps a private `storageAdapter` field, filled
from `StorageFactory.getAdapter()` on first use and returned directly on
every later call. Adapters are identified by a numeric id; the second
component is the new cache field. -/
def assetGetStorage (storageAdapter : Option Nat) (factoryAdapter : Nat) :
    Nat × Option Nat :=
  match storageAdapter with
  | some a => (a, some a)
  | none => (factoryAdapter, some factoryAdapter)

/-- The adapter reference used by `CdnService.purgeCache` (cdnService.ts
line 38): fetched through `StorageFactory.getAdapter()` on every call. -/
def cdnServiceAdapter (factoryAdapter : Nat) : Nat :=
  factoryAdapter

/-- Where one caller of `StorageFactory.getAdapter` stands.
The body of `getAdapter` runs atomically (single-threaded event loop) up
to its only suspension point, `await this.initializationPromise`:
`waitingOwner` is the caller that started construction and will run the
post-await code (store the instance, clear the promise); `waiting` is a
caller that found an in-flight promise and awaits it; `done v` is a caller
to which `getAdapter` returned adapter `v`. -/
inductive CPhase where
  | start
  | waitingOwner
  | waiting
  | done (v : Nat)
deriving DecidableEq, Repr

/-- The shared state of `StorageFactory` plus the phase of each of the `N`
concurrent callers. `inst` is the `instance` field, `inflight` whether
`initializationPromise` is non-null, `builderActive` whether a
`createAdapter()` execution is running, `resolved` the value of the
settled initialization promise, and `builds` how many times the
construction routine (with its health check) has been started. Adapters
are identified by numeric ids. -/
structure FacState (N : Nat) where
  inst : Option Nat
  inflight : Bool
  builderActive : Bool
  resolved : Option Nat
  builds : Nat
  callers : Fin N → CPhase

/-- Initial state: no instance, no in-flight promise, nobody has run. -/
def facInit (N : Nat) : FacState N :=
  ⟨none, false, false, none, 0, fun _ => CPhase.start⟩

/-- Interleaving semantics of `StorageFactory.getAdapter` (lines 19-36).
Each constructor is one atomic event-loop segment:
`enterHit` — a caller runs the synchronous prefix and returns the cached
instance (line 21-23); `enterWait` — it finds an in-flight promise and
awaits it (line 26-28); `enterStart` — it finds neither, assigns a fresh
promise and starts `createAdapter()` (line 31), then awaits;
`resolveBuild` — the running construction completes with some adapter `v`
(`createAdapter` never rejects: every failure falls back to the local
adapter); `ownerResume` — the starting caller resumes after the await,
stores the instance, clears the promise and returns (lines 32-35);
`waiterResume` — an awaiting caller resumes with the promise's value. -/
inductive FacStep (N : Nat) : FacState N → FacState N → Prop where
  | enterHit (s : FacState N) (c : Fin N) (v : Nat) :
      s.callers c = CPhase.start → s.inst = some v →
      FacStep N s
        { s with callers := Function.update s.callers c (CPhase.done v) }
  | enterWait (s : FacState N) (c : Fin N) :
      s.callers c = CPhase.start → s.inst = none → s.inflight = true →
      FacStep N s
        { s with callers := Function.update s.callers c CPhase.waiting }
  | enterStart (s : FacState N) (c : Fin N) :
      s.callers c = CPhase.start → s.inst = none → s.inflight = false →
      FacStep N s
        { s with
            inflight := true,
            builderActive := true,
            builds := s.builds + 1,
            callers := Function.update s.callers c CPhase.waitingOwner }
  | resolveBuild (s : FacState N) (v : Nat) :
      s.builderActive = true →
      FacStep N s { s with builderActive := false, resolved := some v }
  | ownerResume (s : FacState N) (c : Fin N) (v : Nat) :
      s.callers c = CPhase.waitingOwner → s.resolved = some v →
      FacStep N s
        { s with
            inst := some v,
            inflight := false,
            callers := Function.update s.callers c (CPhase.done v) }
  | waiterResume (s : FacState N) (c : Fin N) (v : Nat) :
      s.callers c = CPhase.waiting → s.resolved = some v →
      FacStep N s
        { s with callers := Function.update s.callers c (CPhase.done v) }

/-- States reachable from the initial state by any interleaving. -/
def FacReach (N : Nat) (s : FacState N) : Prop :=
  Relation.ReflTransGen (FacStep N) (facInit N) s

/-- The inductive invariant of the factory's singleton protocol. -/
def FacInv {N : Nat} (s : FacState N) : Prop :=
  s.builds ≤ 1 ∧
  (s.builds = 0 → s.inst = none ∧ s.inflight = false ∧
    s.builderActive = false ∧ s.resolved = none ∧
    ∀ c, s.callers c = CPhase.start) ∧
  (s.builderActive = true → s.inflight = true ∧ s.inst = none ∧
    s.resolved = none ∧ s.builds = 1) ∧
  (∀ v, s.resolved = some v → s.builderActive = false ∧ s.builds = 1 ∧
    ((s.inst = none ∧ s.inflight = true) ∨ s.inst = some v)) ∧
  (∀ v, s.inst = some v → s.resolved = some v ∧ s.inflight = false ∧
    s.builderActive = false) ∧
  (∀ c v, s.callers c = CPhase.done v → s.resolved = some v) ∧
  (s.builds = 1 → s.inflight = true ∨ s.inst ≠ none)

/-- The concrete two-caller interleaving used as a witness: caller 0
starts construction, caller 1 arrives during it and awaits, the
construction resolves with adapter 7, then both callers resume. -/
def facS0 : FacState 2 := facInit 2

def facS1 : FacState 2 :=
  { facS0 with
      inflight := true,
      builderActive := true,
      builds := facS0.builds + 1,
      callers := Function.update facS0.callers 0 CPhase.waitingOwner }

def facS2 : FacState 2 :=
  { facS1 with callers := Function.update facS1.callers 1 CPhase.waiting }

def facS3 : FacState 2 :=
  { facS2 with builderActive := false, resolved := some 7 }

def facS4 : FacState 2 :=
  { facS3 with
      inst := some 7,
      inflight := false,
      callers := Function.update facS3.callers 0 (CPhase.done 7) }

def facS5 : FacState 2 :=
  { facS4 with callers := Function.update facS4.callers 1 (CPhase.done 7) }

theorem hasDotDot_tail {a : Char} {l : List Char}
    (h : hasDotDot (a :: l) = false) : hasDotDot l = false := by
  cases l with
  | nil => rfl
  | cons b t =>
    unfold hasDotDot at h
    split at h
    · exact absurd h (by simp)
    · exact h

theorem hasDotDot_cons_false {a : Char} {l : List Char}
    (ha : ¬ (a = '.' ∧ l.head? = some '.')) (hl : hasDotDot l = false) :
    hasDotDot (a :: l) = false := by
  cases l with
  | nil => rfl
  | cons b t =>
    unfold hasDotDot
    split
    · exact absurd (by simpa using And.intro (by tauto) (by tauto)) ha
    · exact hl

theorem removeDotDot_cons_ne_dot {c : Char} (l : List Char) (hc : c ≠ '.') :
    removeDotDot (c :: l) = c :: removeDotDot l := by
  cases l with
  | nil => rfl
  | cons b t =>
    simp only [removeDotDot]
    rw [if_neg (fun h => hc h.1)]

/-- After the global `..`-removal pass, no occurrence of `..` remains. -/
theorem hasDotDot_removeDotDot (l : List Char) :
    hasDotDot (removeDotDot l) = false := by
  induction l using removeDotDot.induct with
  | case1 => rfl
  | case2 c => rfl
  | case3 a b rest hab ih =>
    rw [removeDotDot, if_pos hab]
    exact ih
  | case4 a b rest hab ih =>
    rw [removeDotDot, if_neg hab]
    by_cases ha : a = '.'
    · have hb : b ≠ '.' := fun hb => hab ⟨ha, hb⟩
      have hbr : removeDotDot (b :: rest) = b :: removeDotDot rest :=
        removeDotDot_cons_ne_dot rest hb
      apply hasDotDot_cons_false
      · rw [hbr]
        simp only [List.head?]
        intro h
        exact hb (Option.some.inj h.2)
      · exact ih
    · apply hasDotDot_cons_false
      · intro h
        exact ha h.1
      · exact ih

/-- A list without `..` is a fixed point of the removal pass. -/
theorem removeDotDot_of_no_dotdot {l : List Char}
    (h : hasDotDot l = false) : removeDotDot l = l := by
  induction l using removeDotDot.induct with
  | case1 => rfl
  | case2 c => rfl
  | case3 a b rest hab ih =>
    exfalso
    have : hasDotDot (a :: b :: rest) = true := by
      unfold hasDotDot
      rw [if_pos hab]
    rw [h] at this
    exact Bool.false_ne_true this
  | case4 a b rest hab ih =>
    rw [removeDotDot, if_neg hab]
    rw [ih (hasDotDot_tail h)]

theorem hasDotDot_dropWhile (p : Char → Bool) {l : List Char}
    (h : hasDotDot l = false) : hasDotDot (l.dropWhile p) = false := by
  induction l with
  | nil => rfl
  | cons a t ih =>
    rw [List.dropWhile]
    cases hp : p a with
    | true =>
      simp only []
      exact ih (hasDotDot_tail h)
    | false =>
      simp only []
      exact h

theorem dropWhile_head_false (p : Char → Bool) (l : List Char) {a : Char}
    (h : (l.dropWhile p).head? = some a) : p a = false := by
  induction l with
  | nil => simp [List.dropWhile] at h
  | cons b t ih =>
    rw [List.dropWhile] at h
    cases hp : p b with
    | true =>
      rw [hp] at h
      exact ih h
    | false =>
      rw [hp] at h
      simp only [List.head?] at h
      rw [← Option.some.inj h]
      exact hp

theorem dropWhile_idem (p : Char → Bool) (l : List Char) :
    (l.dropWhile p).dropWhile p = l.dropWhile p := by
  induction l with
  | nil => rfl
  | cons a t ih =>
    rw [List.dropWhile]
    cases hp : p a with
    | true => simpa using ih
    | false => simp [List.dropWhile, hp]

theorem splitSeg_ne_nil (l : List Char) : splitSeg l ≠ [] := by
  cases l with
  | nil => simp [splitSeg]
  | cons c rest =>
    simp only [splitSeg]
    split
    · simp
    · split <;> simp

theorem escapeSteps_of_no_dotdot {segs : List (List Char)}
    (h : ∀ seg ∈ segs, seg ≠ ['.', '.']) (d : Nat) :
    escapeSteps d segs = false := by
  induction segs generalizing d with
  | nil => rfl
  | cons seg rest ih =>
    have hseg : seg ≠ ['.', '.'] := h seg (List.mem_cons_self seg rest)
    have hrest : ∀ s ∈ rest, s ≠ ['.', '.'] :=
      fun s hs => h s (List.mem_cons_of_mem seg hs)
    simp only [escapeSteps]
    rw [if_neg hseg]
    split
    · exact ih hrest d
    · exact ih hrest (d + 1)

theorem hasDotDot_cons_true (x : Char) {l : List Char}
    (h : hasDotDot l = true) : hasDotDot (x :: l) = true := by
  cases l with
  | nil => simp [hasDotDot] at h
  | cons b t =>
    simp only [hasDotDot]
    split
    · rfl
    · exact h

theorem hasDotDot_append_left :
    ∀ (l t : List Char), hasDotDot l = true → hasDotDot (l ++ t) = true
  | [], t, h => by simp [hasDotDot] at h
  | [c], t, h => by simp [hasDotDot] at h
  | a :: b :: rest, t, h => by
    by_cases hab : a = '.' ∧ b = '.'
    · simp only [List.cons_append, hasDotDot]
      rw [if_pos hab]
    · simp only [hasDotDot] at h
      rw [if_neg hab] at h
      have ih := hasDotDot_append_left (b :: rest) t h
      simp only [List.cons_append, hasDotDot] at ih ⊢
      rw [if_neg hab]
      exact ih

theorem hasDotDot_of_infix {l₁ l₂ : List Char}
    (h : l₁ <:+: l₂) (hd : hasDotDot l₁ = true) : hasDotDot l₂ = true := by
  obtain ⟨s, t, rfl⟩ := h
  induction s with
  | nil =>
    simpa using hasDotDot_append_left l₁ t hd
  | cons a s2 ihs =>
    simpa using hasDotDot_cons_true a (by simpa using ihs)

theorem seg_head_prefix (l : List Char) :
    ∃ s ss, splitSeg l = s :: ss ∧ s <+: l := by
  induction l with
  | nil => exact ⟨[], [], rfl, List.nil_prefix⟩
  | cons c rest ih =>
    by_cases hc : c = '/'
    · refine ⟨[], splitSeg rest, ?_, List.nil_prefix⟩
      simp [splitSeg, hc]
    · obtain ⟨s, ss, hsplit, hpre⟩ := ih
      refine ⟨c :: s, ss, ?_, ?_⟩
      · simp only [splitSeg]
        rw [if_neg hc, hsplit]
      · exact List.cons_prefix_cons.mpr ⟨rfl, hpre⟩

theorem splitSeg_mem_infix {l : List Char} {seg : List Char}
    (h : seg ∈ splitSeg l) : seg <:+: l := by
  induction l with
  | nil =>
    simp [splitSeg] at h
    simp [h]
  | cons c rest ih =>
    by_cases hc : c = '/'
    · rw [show splitSeg (c :: rest) = [] :: splitSeg rest by
        simp [splitSeg, hc]] at h
      rcases List.mem_cons.mp h with h0 | h1
      · simp [h0]
      · exact (ih h1).trans (List.infix_cons (List.infix_refl rest))
    · obtain ⟨s, ss, hsplit, hpre⟩ := seg_head_prefix rest
      rw [show splitSeg (c :: rest) = (c :: s) :: ss by
        simp only [splitSeg]; rw [if_neg hc, hsplit]] at h
      rcases List.mem_cons.mp h with h0 | h1
      · subst h0
        exact (List.cons_prefix_cons.mpr ⟨rfl, hpre⟩).isInfix
      · have : seg ∈ splitSeg rest := by rw [hsplit]; exact List.mem_cons_of_mem s h1
        exact (ih this).trans (List.infix_cons (List.infix_refl rest))

/-- A key without the substring `..` has no `..` path segment, hence cannot
climb out of the directory it is joined to. -/
theorem escapesRoot_of_no_dotdot {l : List Char}
    (h : hasDotDot l = false) : escapesRoot l = false := by
  apply escapeSteps_of_no_dotdot
  intro seg hseg hdd
  subst hdd
  have hinf : ['.', '.'] <:+: l := splitSeg_mem_infix hseg
  have : hasDotDot l = true := hasDotDot_of_infix hinf (by rfl)
  rw [h] at this
  exact Bool.false_ne_true this

end LMS

/-- C2: the local adapter's key sanitization (remove all `..` occurrences,
then strip leading slashes) is idempotent, and its result never begins with
a slash and never contains the substring `..`. -/
theorem C2_sanitize_idempotent_and_safe (k : String) :
    LMS.sanitizeKeyStr (LMS.sanitizeKeyStr k) = LMS.sanitizeKeyStr k ∧
    (LMS.sanitizeKeyStr k).data.head? ≠ some '/' ∧
    ¬ (['.', '.'] <:+: (LMS.sanitizeKeyStr k).data) := by
  have hdata : (LMS.sanitizeKeyStr k).data = LMS.sanitizeKey k.data := rfl
  have hno : LMS.hasDotDot (LMS.sanitizeKey k.data) = false :=
    LMS.hasDotDot_dropWhile _ (LMS.hasDotDot_removeDotDot k.data)
  refine ⟨?_, ?_, ?_⟩
  · show String.mk (LMS.sanitizeKey (LMS.sanitizeKey k.data)) =
      String.mk (LMS.sanitizeKey k.data)
    have h1 : LMS.removeDotDot (LMS.sanitizeKey k.data) =
        LMS.sanitizeKey k.data :=
      LMS.removeDotDot_of_no_dotdot hno
    show String.mk
        (LMS.dropLeadingSlashes (LMS.removeDotDot (LMS.sanitizeKey k.data))) =
      String.mk (LMS.sanitizeKey k.data)
    rw [h1]
    have h2 : LMS.dropLeadingSlashes
        (LMS.dropLeadingSlashes (LMS.removeDotDot k.data)) =
        LMS.dropLeadingSlashes (LMS.removeDotDot k.data) :=
      LMS.dropWhile_idem _ _
    show String.mk (LMS.dropLeadingSlashes
        (LMS.dropLeadingSlashes (LMS.removeDotDot k.data))) = _
    rw [h2]
    rfl
  · rw [hdata]
    intro hhead
    have := LMS.dropWhile_head_false _ (LMS.removeDotDot k.data) hhead
    simp at this
  · rw [hdata]
    intro hinf
    have := LMS.hasDotDot_of_infix hinf (by rfl)
    rw [hno] at this
    exact Bool.false_ne_true this

/-- C1 (code bug): the write paths of the local adapter sanitize their key
before joining it to the root, so the joined path never escapes the root;
but `LocalStorageAdapter.deleteFile` joins its raw key without any
sanitization, so for the concrete key `../../secret` the filesystem path it
unlinks escapes the root directory. -/
theorem C1_deleteFile_skips_sanitization :
    (∀ k : String,
      LMS.escapesRoot (LMS.uploadFileKeyUsed k).data = false ∧
      LMS.escapesRoot (LMS.uploadBufferKeyUsed k).data = false) ∧
    LMS.deleteFileKeyUsed LMS.dotdotDeleteKey = LMS.dotdotDeleteKey ∧
    LMS.escapesRoot (LMS.deleteFileKeyUsed LMS.dotdotDeleteKey).data = true ∧
    LMS.deleteFileKeyUsed LMS.dotdotDeleteKey ≠
      LMS.sanitizeKeyStr LMS.dotdotDeleteKey := by
  refine ⟨?_, rfl, by decide, by decide⟩
  intro k
  have hno : LMS.hasDotDot (LMS.sanitizeKey k.data) = false :=
    LMS.hasDotDot_dropWhile _ (LMS.hasDotDot_removeDotDot k.data)
  exact ⟨LMS.escapesRoot_of_no_dotdot hno, LMS.escapesRoot_of_no_dotdot hno⟩

theorem mem_missingConfig {cfg : List (String × Option String)} {name : String} :
    name ∈ LMS.missingConfig cfg ↔
      ∃ v, (name, v) ∈ cfg ∧ LMS.falsy v = true := by
  unfold LMS.missingConfig
  simp only [List.mem_map, List.mem_filter]
  constructor
  · rintro ⟨⟨n, v⟩, ⟨hmem, hfal⟩, rfl⟩
    exact ⟨v, hmem, hfal⟩
  · rintro ⟨v, hmem, hfal⟩
    exact ⟨(name, v), ⟨hmem, hfal⟩, rfl⟩

/-- C4: when the selected provider is a CDN adapter and some required
configuration value is missing, the internal constructor fails fast with an
error naming exactly the missing fields, no network health check is
attempted, and `getAdapter` returns the local adapter without raising
(`createAdapter` is total and yields the local kind). -/
theorem C4_missing_cdn_config_falls_back_to_local
    (env : LMS.Env) (r2h s3h : Bool) :
    (LMS.provider env = "cloudflare-r2" →
      LMS.missingConfig (LMS.r2Config env) ≠ [] →
      LMS.createAdapter env r2h s3h =
        (LMS.AdapterKind.localFs, false,
          some (LMS.BuildErr.missingConfigErr
            (LMS.missingConfig (LMS.r2Config env)))) ∧
      ∀ name, name ∈ LMS.missingConfig (LMS.r2Config env) ↔
        ∃ v, (name, v) ∈ LMS.r2Config env ∧ LMS.falsy v = true) ∧
    (LMS.provider env = "s3-cloudfront" →
      LMS.missingConfig (LMS.s3RequiredConfig env) ≠ [] →
      LMS.createAdapter env r2h s3h =
        (LMS.AdapterKind.localFs, false,
          some (LMS.BuildErr.missingConfigErr
            (LMS.missingConfig (LMS.s3RequiredConfig env)))) ∧
      ∀ name, name ∈ LMS.missingConfig (LMS.s3RequiredConfig env) ↔
        ∃ v, (name, v) ∈ LMS.s3RequiredConfig env ∧ LMS.falsy v = true) := by
  constructor
  · intro hprov hmiss
    refine ⟨?_, fun name => mem_missingConfig⟩
    unfold LMS.createAdapter
    rw [if_pos hprov]
    unfold LMS.createCloudFlareR2Adapter
    simp only [if_neg hmiss]
  · intro hprov hmiss
    refine ⟨?_, fun name => mem_missingConfig⟩
    unfold LMS.createAdapter
    rw [if_neg (by rw [hprov]; decide), if_pos hprov]
    unfold LMS.createS3CloudFrontAdapter
    simp only [if_neg hmiss]

/-- Witness for C4 at two concrete environments, one per CDN provider. -/
theorem C4_missing_cdn_config_witness :
    (LMS.provider LMS.envMissingR2 = "cloudflare-r2" ∧
     LMS.missingConfig (LMS.r2Config LMS.envMissingR2) ≠ [] ∧
     LMS.createAdapter LMS.envMissingR2 true true =
       (LMS.AdapterKind.localFs, false,
         some (LMS.BuildErr.missingConfigErr
           ["accountId", "accessKeyId", "secretAccessKey",
            "bucketName", "cdnDomain"]))) ∧
    (LMS.provider LMS.envMissingS3 = "s3-cloudfront" ∧
     LMS.missingConfig (LMS.s3RequiredConfig LMS.envMissingS3) ≠ [] ∧
     LMS.createAdapter LMS.envMissingS3 true true =
       (LMS.AdapterKind.localFs, false,
         some (LMS.BuildErr.missingConfigErr
           ["region", "accessKeyId", "secretAccessKey",
            "bucketName", "cloudFrontDomain"]))) := by
  have h1 := (C4_missing_cdn_config_falls_back_to_local
    LMS.envMissingR2 true true).1 (by decide) (by decide)
  have h2 := (C4_missing_cdn_config_falls_back_to_local
    LMS.envMissingS3 true true).2 (by decide) (by decide)
  refine ⟨⟨by decide, by decide, ?_⟩, ⟨by decide, by decide, ?_⟩⟩
  · rw [h1.1]; decide
  · rw [h2.1]; decide

/-- C10: an unrecognized provider selector string (or an unset variable,
for which the selector defaults to local) silently yields the local
adapter: no error is raised or recorded and no CDN construction or health
check is attempted. -/
theorem C10_unrecognized_provider_behaves_like_local
    (env : LMS.Env) (r2h s3h : Bool)
    (h1 : LMS.provider env ≠ "cloudflare-r2")
    (h2 : LMS.provider env ≠ "s3-cloudfront") :
    LMS.createAdapter env r2h s3h = (LMS.AdapterKind.localFs, false, none) := by
  unfold LMS.createAdapter
  rw [if_neg h1, if_neg h2]

/-- Witness for C10: a typo provider string and an unset variable. -/
theorem C10_unrecognized_provider_witness :
    (LMS.provider LMS.envTypoProvider ≠ "cloudflare-r2" ∧
     LMS.provider LMS.envTypoProvider ≠ "s3-cloudfront" ∧
     LMS.createAdapter LMS.envTypoProvider true true =
       (LMS.AdapterKind.localFs, false, none)) ∧
    (LMS.provider ⟨none, none, none, none, none, none, none, none, none,
        none, none, none⟩ = "local" ∧
     LMS.createAdapter ⟨none, none, none, none, none, none, none, none,
        none, none, none, none⟩ false false =
       (LMS.AdapterKind.localFs, false, none)) := by
  refine ⟨⟨by decide, by decide, ?_⟩, ⟨by decide, ?_⟩⟩
  · exact C10_unrecognized_provider_behaves_like_local
      LMS.envTypoProvider true true (by decide) (by decide)
  · exact C10_unrecognized_provider_behaves_like_local
      _ false false (by decide) (by decide)

theorem purgeCache_snd_of_resolved {ty : String} {ck : String → List String}
    {purge : List String → LMS.PurgeOutcome} {o : LMS.CdnPurgeOptions}
    {ks : List String} (hres : LMS.resolvePurgeKeys ck o = some ks)
    (hne : ks ≠ []) :
    (LMS.purgeCache true ty ck purge o).2 = some ks := by
  unfold LMS.purgeCache
  rw [if_neg (by decide), hres]
  have hlen : ¬ ks.length = 0 := by
    simpa [List.length_eq_zero] using hne
  simp only [if_neg hlen]
  rcases hp : purge ks with b | m
  · cases b <;> simp [hp]
  · simp [hp]

theorem purgeCache_of_resolved_nil {ty : String} {ck : String → List String}
    {purge : List String → LMS.PurgeOutcome} {o : LMS.CdnPurgeOptions}
    (hres : LMS.resolvePurgeKeys ck o = some []) :
    LMS.purgeCache true ty ck purge o =
      ({ success := true, purgedKeys := [],
         message := "No keys found to purge", cdnProvider := none }, none) := by
  unfold LMS.purgeCache
  rw [if_neg (by decide), hres]
  rfl

theorem purgeCache_of_resolved_none {ty : String} {ck : String → List String}
    {purge : List String → LMS.PurgeOutcome} {o : LMS.CdnPurgeOptions}
    (hres : LMS.resolvePurgeKeys ck o = none) :
    LMS.purgeCache true ty ck purge o =
      ({ success := false, purgedKeys := [],
         message := "No purge target specified", cdnProvider := none },
       none) := by
  unfold LMS.purgeCache
  rw [if_neg (by decide), hres]

theorem purgeCache_thrown {ty : String} {ck : String → List String}
    {purge : List String → LMS.PurgeOutcome} {o : LMS.CdnPurgeOptions}
    {ks : List String} {m : String}
    (hres : LMS.resolvePurgeKeys ck o = some ks) (hne : ks ≠ [])
    (hp : purge ks = LMS.PurgeOutcome.thrown m) :
    LMS.purgeCache true ty ck purge o =
      ({ success := false, purgedKeys := [], message := m,
         cdnProvider := some ty }, some ks) := by
  unfold LMS.purgeCache
  rw [if_neg (by decide), hres]
  have hlen : ¬ ks.length = 0 := by
    simpa [List.length_eq_zero] using hne
  simp only [if_neg hlen]
  rw [hp]

/-- C5: purge strategy precedence in `CdnService.purgeCache` is
purgeAll, then courseId, then pattern, then the explicit key list; with
the global flag set the adapter purge receives the wildcard list, and with
only a non-empty explicit key list it receives exactly those keys. -/
theorem C5_purge_strategy_precedence (ty : String)
    (ck : String → List String) (purge : List String → LMS.PurgeOutcome)
    (o : LMS.CdnPurgeOptions) :
    (o.purgeAll = true →
      (LMS.purgeCache true ty ck purge o).2 = some ["*"]) ∧
    (o.purgeAll = false → LMS.truthyStr o.courseId = true →
      LMS.resolvePurgeKeys ck o = some (ck (o.courseId.getD ""))) ∧
    (o.purgeAll = false → LMS.truthyStr o.courseId = false →
      LMS.truthyStr o.pattern = true →
      LMS.resolvePurgeKeys ck o = some [(o.pattern.getD "")]) ∧
    (∀ ks, o.purgeAll = false → LMS.truthyStr o.courseId = false →
      LMS.truthyStr o.pattern = false → o.keys = some ks → ks ≠ [] →
      (LMS.purgeCache true ty ck purge o).2 = some ks) := by
  refine ⟨?_, ?_, ?_, ?_⟩
  · intro ha
    have hres : LMS.resolvePurgeKeys ck o = some ["*"] := by
      unfold LMS.resolvePurgeKeys
      rw [ha]
      simp
    exact purgeCache_snd_of_resolved hres (by decide)
  · intro ha hc
    unfold LMS.resolvePurgeKeys
    rw [ha, hc]
    simp
  · intro ha hc hp
    unfold LMS.resolvePurgeKeys
    rw [ha, hc, hp]
    simp
  · intro ks ha hc hp hk hne
    have hres : LMS.resolvePurgeKeys ck o = some ks := by
      unfold LMS.resolvePurgeKeys
      rw [ha, hc, hp, hk]
      have : LMS.keysProvided (some ks) = true := by
        unfold LMS.keysProvided
        simpa [List.length_pos] using hne
      rw [this]
      simp
    exact purgeCache_snd_of_resolved hres hne

/-- Witness for C5: a request with both the global flag and keys set goes
to the wildcard; a request with only keys goes to exactly those keys. -/
theorem C5_purge_strategy_witness :
    ((LMS.purgeCache true "local" (fun _ => [])
        (fun _ => LMS.PurgeOutcome.ok true)
        { purgeAll := true, keys := some ["a", "b"], courseId := none,
          pattern := none }).2 = some ["*"]) ∧
    ((LMS.purgeCache true "local" (fun _ => [])
        (fun _ => LMS.PurgeOutcome.ok true)
        { purgeAll := false, keys := some ["a", "b"], courseId := none,
          pattern := none }).2 = some ["a", "b"]) := by
  constructor
  · exact (C5_purge_strategy_precedence "local" (fun _ => [])
      (fun _ => LMS.PurgeOutcome.ok true)
      { purgeAll := true, keys := some ["a", "b"], courseId := none,
        pattern := none }).1 rfl
  · exact (C5_purge_strategy_precedence "local" (fun _ => [])
      (fun _ => LMS.PurgeOutcome.ok true)
      { purgeAll := false, keys := some ["a", "b"], courseId := none,
        pattern := none }).2.2.2 ["a", "b"] rfl (by decide) (by decide)
      rfl (by decide)

/-- C6: against the local adapter (cdnEnabled permanently false),
`purgeCache` returns success with an empty purged-key list for every
request, and the adapter's `purgeCdnCache` is never called. -/
theorem C6_local_adapter_purge_is_noop (ty : String)
    (ck : String → List String) (purge : List String → LMS.PurgeOutcome)
    (o : LMS.CdnPurgeOptions) :
    LMS.LocalAdapterCdnEnabled = false ∧
    LMS.purgeCache LMS.LocalAdapterCdnEnabled ty ck purge o =
      ({ success := true, purgedKeys := [],
         message := "CDN not enabled, no cache to purge",
         cdnProvider := none }, none) :=
  ⟨rfl, rfl⟩

/-- C7 counterexample: with a CDN-enabled adapter and a request carrying an
explicit empty key list (and no other strategy), `purgeCache` returns a
failure result ("No purge target specified"), not the claimed
success-but-empty result. The adapter purge is indeed not called. -/
theorem C7_counterexample_empty_explicit_key_list :
    (LMS.purgeCache true "cloudflare-r2" (fun _ => [])
        (fun _ => LMS.PurgeOutcome.ok true) LMS.emptyKeysRequest).1.success
      = false ∧
    (LMS.purgeCache true "cloudflare-r2" (fun _ => [])
        (fun _ => LMS.PurgeOutcome.ok true) LMS.emptyKeysRequest).2
      = none := by
  decide

/-- C7 amended: a chosen strategy that resolves to an empty key list (a
courseId resolving to no keys) yields a successful-but-empty result
without calling the adapter purge; but an explicit empty key list matches
no strategy and yields a failure result ("No purge target specified"),
also without calling the adapter purge. -/
theorem C7_empty_resolution_short_circuits (ty : String)
    (ck : String → List String) (purge : List String → LMS.PurgeOutcome)
    (o : LMS.CdnPurgeOptions) :
    (∀ cid, o.purgeAll = false → o.courseId = some cid → cid ≠ "" →
      ck cid = [] →
      LMS.purgeCache true ty ck purge o =
        ({ success := true, purgedKeys := [],
           message := "No keys found to purge", cdnProvider := none },
         none)) ∧
    (o.purgeAll = false → LMS.truthyStr o.courseId = false →
      LMS.truthyStr o.pattern = false → o.keys = some [] →
      LMS.purgeCache true ty ck purge o =
        ({ success := false, purgedKeys := [],
           message := "No purge target specified", cdnProvider := none },
         none)) := by
  constructor
  · intro cid ha hcid hne hk
    have hres : LMS.resolvePurgeKeys ck o = some [] := by
      unfold LMS.resolvePurgeKeys
      rw [ha]
      have ht : LMS.truthyStr o.courseId = true := by
        unfold LMS.truthyStr
        rw [hcid]
        simpa using hne
      rw [ht]
      simp [hcid, hk]
    exact purgeCache_of_resolved_nil hres
  · intro ha hc hp hk
    have hres : LMS.resolvePurgeKeys ck o = none := by
      unfold LMS.resolvePurgeKeys
      rw [ha, hc, hp, hk]
      simp [LMS.keysProvided]
    exact purgeCache_of_resolved_none hres

/-- Witness for C7's amended statement at concrete requests. -/
theorem C7_empty_resolution_witness :
    (LMS.purgeCache true "cloudflare-r2" (fun _ => [])
        (fun _ => LMS.PurgeOutcome.ok true)
        { purgeAll := false, keys := none, courseId := some "c1",
          pattern := none } =
      ({ success := true, purgedKeys := [],
         message := "No keys found to purge", cdnProvider := none },
       none)) ∧
    (LMS.purgeCache true "cloudflare-r2" (fun _ => [])
        (fun _ => LMS.PurgeOutcome.ok true) LMS.emptyKeysRequest =
      ({ success := false, purgedKeys := [],
         message := "No purge target specified", cdnProvider := none },
       none)) := by
  constructor
  · exact (C7_empty_resolution_short_circuits "cloudflare-r2" (fun _ => [])
      (fun _ => LMS.PurgeOutcome.ok true)
      { purgeAll := false, keys := none, courseId := some "c1",
        pattern := none }).1 "c1" rfl rfl (by decide) rfl
  · exact (C7_empty_resolution_short_circuits "cloudflare-r2" (fun _ => [])
      (fun _ => LMS.PurgeOutcome.ok true) LMS.emptyKeysRequest).2
      rfl (by decide) (by decide) rfl

/-- C8: purge failures are never propagated as exceptions. The
S3/CloudFront adapter's `purgeCdnCache` returns false when no distribution
id is configured and false when the invalidation call throws; the
CloudFlare adapter's `purgeCdnCache` returns false on missing zone
id/token, on a thrown request, and on a non-ok response; and
`CdnService.purgeCache` converts a thrown adapter exception into a
`success = false` result carrying the error message. -/
theorem C8_purge_failures_are_absorbed :
    (∀ (distId : Option String) (send : List String → Except String Unit)
        (keys : List String), LMS.falsy distId = true →
      LMS.s3PurgeCdnCache distId send keys = false) ∧
    (∀ (distId : Option String) (send : List String → Except String Unit)
        (keys : List String) (e : String),
      send (keys.map (fun k => "/" ++ k)) = Except.error e →
      LMS.s3PurgeCdnCache distId send keys = false) ∧
    (∀ (zoneId apiToken : Option String) (fetchResult : Except String Bool)
        (keys : List String),
      (LMS.falsy zoneId = true ∨ LMS.falsy apiToken = true) →
      LMS.r2PurgeCdnCache zoneId apiToken fetchResult keys = false) ∧
    (∀ (zoneId apiToken : Option String) (keys : List String) (e : String),
      LMS.r2PurgeCdnCache zoneId apiToken (Except.error e) keys = false) ∧
    (∀ (zoneId apiToken : Option String) (keys : List String),
      LMS.r2PurgeCdnCache zoneId apiToken (Except.ok false) keys = false) ∧
    (∀ (ty : String) (ck : String → List String)
        (purge : List String → LMS.PurgeOutcome) (o : LMS.CdnPurgeOptions)
        (ks : List String) (m : String),
      LMS.resolvePurgeKeys ck o = some ks → ks ≠ [] →
      purge ks = LMS.PurgeOutcome.thrown m →
      LMS.purgeCache true ty ck purge o =
        ({ success := false, purgedKeys := [], message := m,
           cdnProvider := some ty }, some ks)) := by
  refine ⟨?_, ?_, ?_, ?_, ?_, ?_⟩
  · intro distId send keys h
    unfold LMS.s3PurgeCdnCache
    rw [if_pos h]
  · intro distId send keys e h
    unfold LMS.s3PurgeCdnCache
    by_cases hd : LMS.falsy distId = true
    · rw [if_pos hd]
    · rw [if_neg hd, h]
  · intro zoneId apiToken fetchResult keys h
    unfold LMS.r2PurgeCdnCache
    rw [if_pos (by simpa using h)]
  · intro zoneId apiToken keys e
    unfold LMS.r2PurgeCdnCache
    by_cases hz : (LMS.falsy zoneId = true ∨ LMS.falsy apiToken = true)
    · rw [if_pos (by simpa using hz)]
    · rw [if_neg (by simpa using hz)]
  · intro zoneId apiToken keys
    unfold LMS.r2PurgeCdnCache
    by_cases hz : (LMS.falsy zoneId = true ∨ LMS.falsy apiToken = true)
    · rw [if_pos (by simpa using hz)]
    · rw [if_neg (by simpa using hz)]
  · intro ty ck purge o ks m hres hne hp
    exact purgeCache_thrown hres hne hp

/-- Witness for C8 at concrete inputs for every conjunct. -/
theorem C8_purge_failures_witness :
    (LMS.s3PurgeCdnCache none (fun _ => Except.ok ()) ["a"] = false) ∧
    (LMS.s3PurgeCdnCache (some "D1") (fun _ => Except.error "neterr") ["a"]
      = false) ∧
    (LMS.r2PurgeCdnCache none (some "tok") (Except.ok true) ["a"] = false) ∧
    (LMS.r2PurgeCdnCache (some "z") (some "tok") (Except.error "boom") ["a"]
      = false) ∧
    (LMS.r2PurgeCdnCache (some "z") (some "tok") (Except.ok false) ["a"]
      = false) ∧
    (LMS.purgeCache true "s3-cloudfront" (fun _ => [])
        (fun _ => LMS.PurgeOutcome.thrown "rate limited")
        { purgeAll := false, keys := some ["k1"], courseId := none,
          pattern := none } =
      ({ success := false, purgedKeys := [], message := "rate limited",
         cdnProvider := some "s3-cloudfront" }, some ["k1"])) := by
  refine ⟨?_, ?_, ?_, ?_, ?_, ?_⟩
  · exact C8_purge_failures_are_absorbed.1 none _ ["a"] (by decide)
  · exact C8_purge_failures_are_absorbed.2.1 (some "D1") _ ["a"] "neterr" rfl
  · exact C8_purge_failures_are_absorbed.2.2.1 none (some "tok") _ ["a"]
      (Or.inl (by decide))
  · exact C8_purge_failures_are_absorbed.2.2.2.1 (some "z") (some "tok")
      ["a"] "boom"
  · exact C8_purge_failures_are_absorbed.2.2.2.2.1 (some "z") (some "tok")
      ["a"]
  · exact C8_purge_failures_are_absorbed.2.2.2.2.2 "s3-cloudfront"
      (fun _ => []) (fun _ => LMS.PurgeOutcome.thrown "rate limited")
      { purgeAll := false, keys := some ["k1"], courseId := none,
        pattern := none } ["k1"] "rate limited" (by decide) (by decide) rfl

/-- C9 counterexample: the AssetService first obtains adapter 0 through the
Factory and caches it; after a reset and re-initialization the Factory's
current adapter is 1, but the AssetService's next operation still uses its
privately cached adapter 0 — not the adapter currently returned by the
Factory, contradicting the claim. -/
theorem C9_counterexample_stale_private_copy :
    (LMS.assetGetStorage ((LMS.assetGetStorage none 0).2) 1).1 = 0 ∧
    (LMS.assetGetStorage ((LMS.assetGetStorage none 0).2) 1).1 ≠ 1 := by
  decide

/-- C9 amended: the CDN Service fetches the adapter through the Factory's
accessor on every call, and the AssetService fetches it through the
accessor on first use, but then keeps a private cached copy: once its
cache holds adapter `a`, every later `getStorage` returns `a` no matter
which adapter `f` the Factory currently holds. -/
theorem C9_asset_service_keeps_private_copy (a f : Nat) :
    LMS.cdnServiceAdapter f = f ∧
    LMS.assetGetStorage none f = (f, some f) ∧
    LMS.assetGetStorage (some a) f = (a, some a) :=
  ⟨rfl, rfl, rfl⟩

theorem facInv_init (N : Nat) : LMS.FacInv (LMS.facInit N) := by
  refine ⟨Nat.zero_le 1, fun _ => ⟨rfl, rfl, rfl, rfl, fun c => rfl⟩,
    ?_, ?_, ?_, ?_, ?_⟩
  · intro h
    exact absurd h (by simp [LMS.facInit])
  · intro v h
    exact absurd h (by simp [LMS.facInit])
  · intro v h
    exact absurd h (by simp [LMS.facInit])
  · intro c v h
    exact absurd h (by simp [LMS.facInit, LMS.CPhase.done])
  · intro h
    exact absurd h (by simp [LMS.facInit])

theorem update_done_cases {N : Nat} (f : Fin N → LMS.CPhase) (c x : Fin N)
    (p : LMS.CPhase) (w : Nat)
    (hx : Function.update f c p x = LMS.CPhase.done w) :
    (x = c ∧ p = LMS.CPhase.done w) ∨ (x ≠ c ∧ f x = LMS.CPhase.done w) := by
  by_cases hxc : x = c
  · subst hxc
    rw [Function.update_same] at hx
    exact Or.inl ⟨rfl, hx⟩
  · rw [Function.update_noteq hxc] at hx
    exact Or.inr ⟨hxc, hx⟩

theorem facStep_preserves {N : Nat} {s t : LMS.FacState N}
    (hstep : LMS.FacStep N s t) (hinv : LMS.FacInv s) : LMS.FacInv t := by
  obtain ⟨h1, h2, h3, h4, h5, h6, h7⟩ := hinv
  cases hstep with
  | enterHit c v hc hv =>
    refine ⟨h1, ?_, h3, h4, h5, ?_, h7⟩
    · intro h0
      rw [(h2 h0).1] at hv
      exact absurd hv (by simp)
    · intro x w hx
      rcases update_done_cases s.callers c x (LMS.CPhase.done v) w hx with
        ⟨hxc, hp⟩ | ⟨hxc, hp⟩
      · injection hp with hvw
        subst hvw
        exact (h5 v hv).1
      · exact h6 x w hp
  | enterWait c hc hinst hinf =>
    refine ⟨h1, ?_, h3, h4, h5, ?_, h7⟩
    · intro h0
      rw [(h2 h0).2.1] at hinf
      exact absurd hinf (by simp)
    · intro x w hx
      rcases update_done_cases s.callers c x LMS.CPhase.waiting w hx with
        ⟨hxc, hp⟩ | ⟨hxc, hp⟩
      · exact absurd hp (by simp)
      · exact h6 x w hp
  | enterStart c hc hinst hninf =>
    have hb0 : s.builds = 0 := by
      rcases Nat.lt_or_ge s.builds 1 with hlt | hge
      · omega
      · exfalso
        have hb1 : s.builds = 1 := by omega
        rcases h7 hb1 with hfl | hin
        · rw [hninf] at hfl
          exact absurd hfl (by simp)
        · exact hin hinst
    obtain ⟨hi0, hf0, hba0, hr0, hall0⟩ := h2 hb0
    refine ⟨?_, ?_, ?_, ?_, ?_, ?_, ?_⟩
    · show s.builds + 1 ≤ 1
      omega
    · intro h0
      exact absurd (show s.builds + 1 = 0 from h0) (by omega)
    · intro _
      exact ⟨rfl, hinst, hr0, show s.builds + 1 = 1 by omega⟩
    · intro v hv
      rw [hr0] at hv
      exact absurd hv (by simp)
    · intro v hv
      rw [hinst] at hv
      exact absurd hv (by simp)
    · intro x w hx
      rcases update_done_cases s.callers c x LMS.CPhase.waitingOwner w hx with
        ⟨hxc, hp⟩ | ⟨hxc, hp⟩
      · exact absurd hp (by simp)
      · rw [hall0 x] at hp
        exact absurd hp (by simp)
    · intro _
      exact Or.inl rfl
  | resolveBuild v hba =>
    obtain ⟨hfl, hin, hrn, hb1⟩ := h3 hba
    refine ⟨h1, ?_, ?_, ?_, ?_, ?_, ?_⟩
    · intro h0
      exact absurd (show s.builds = 0 from h0) (by omega)
    · intro hba2
      exact absurd hba2 (by simp)
    · intro w hw
      cases hw
      exact ⟨rfl, hb1, Or.inl ⟨hin, hfl⟩⟩
    · intro w hw
      rw [hin] at hw
      exact absurd hw (by simp)
    · intro x w hx
      have := h6 x w hx
      rw [hrn] at this
      exact absurd this (by simp)
    · intro _
      exact Or.inl hfl
  | ownerResume c v hc hrv =>
    obtain ⟨hba, hb1, hdis⟩ := h4 v hrv
    refine ⟨h1, ?_, ?_, ?_, ?_, ?_, ?_⟩
    · intro h0
      exact absurd (show s.builds = 0 from h0) (by omega)
    · intro hba2
      rw [hba] at hba2
      exact absurd hba2 (by simp)
    · intro w hw
      rw [hrv] at hw
      cases hw
      exact ⟨hba, hb1, Or.inr rfl⟩
    · intro w hw
      cases hw
      exact ⟨hrv, rfl, hba⟩
    · intro x w hx
      rcases update_done_cases s.callers c x (LMS.CPhase.done v) w hx with
        ⟨hxc, hp⟩ | ⟨hxc, hp⟩
      · injection hp with hvw
        subst hvw
        exact hrv
      · exact h6 x w hp
    · intro _
      exact Or.inr (by simp)
  | waiterResume c v hc hrv =>
    refine ⟨h1, ?_, h3, h4, h5, ?_, h7⟩
    · intro h0
      rw [(h2 h0).2.2.2.1] at hrv
      exact absurd hrv (by simp)
    · intro x w hx
      rcases update_done_cases s.callers c x (LMS.CPhase.done v) w hx with
        ⟨hxc, hp⟩ | ⟨hxc, hp⟩
      · injection hp with hvw
        subst hvw
        exact hrv
      · exact h6 x w hp

theorem facInv_of_reach {N : Nat} {s : LMS.FacState N}
    (h : LMS.FacReach N s) : LMS.FacInv s := by
  unfold LMS.FacReach at h
  induction h with
  | refl => exact facInv_init N
  | tail hpre hstep ih => exact facStep_preserves hstep ih

/-- C3: under the event-loop interleaving semantics of
`StorageFactory.getAdapter`, in every reachable state of every N-caller
run (N at least 2) the construction routine has been started at most once;
any two callers to which `getAdapter` has returned received the same
adapter instance; and once every caller has received an adapter, the
construction routine (with its health check) has executed exactly once —
so concurrent callers arriving during the in-flight construction all await
and receive that same eventual instance. -/
theorem C3_singleton_at_most_one_construction (N : Nat)
    (s : LMS.FacState N) (hN : 2 ≤ N) (h : LMS.FacReach N s) :
    s.builds ≤ 1 ∧
    (∀ c1 c2 v1 v2, s.callers c1 = LMS.CPhase.done v1 →
      s.callers c2 = LMS.CPhase.done v2 → v1 = v2) ∧
    ((∀ c, ∃ v, s.callers c = LMS.CPhase.done v) → s.builds = 1) := by
  obtain ⟨h1, h2, h3, h4, h5, h6, h7⟩ := facInv_of_reach h
  refine ⟨h1, ?_, ?_⟩
  · intro c1 c2 v1 v2 hc1 hc2
    have e1 := h6 c1 v1 hc1
    have e2 := h6 c2 v2 hc2
    rw [e1] at e2
    exact Option.some.inj e2
  · intro hall
    obtain ⟨v, hv⟩ := hall ⟨0, by omega⟩
    exact (h4 v (h6 _ v hv)).2.1

/-- Witness for C3: the concrete two-caller interleaving in which caller 1
arrives while caller 0's construction is in flight; in the final state
both callers hold adapter 7 and exactly one construction ran. -/
theorem C3_singleton_witness :
    2 ≤ 2 ∧ LMS.facS5.builds ≤ 1 ∧ LMS.facS5.builds = 1 ∧
    (∀ c : Fin 2, LMS.facS5.callers c = LMS.CPhase.done 7) := by
  have r01 : LMS.FacStep 2 LMS.facS0 LMS.facS1 :=
    LMS.FacStep.enterStart LMS.facS0 0 rfl rfl rfl
  have r12 : LMS.FacStep 2 LMS.facS1 LMS.facS2 :=
    LMS.FacStep.enterWait LMS.facS1 1 (by decide) rfl rfl
  have r23 : LMS.FacStep 2 LMS.facS2 LMS.facS3 :=
    LMS.FacStep.resolveBuild LMS.facS2 7 rfl
  have r34 : LMS.FacStep 2 LMS.facS3 LMS.facS4 :=
    LMS.FacStep.ownerResume LMS.facS3 0 7 (by decide) rfl
  have r45 : LMS.FacStep 2 LMS.facS4 LMS.facS5 :=
    LMS.FacStep.waiterResume LMS.facS4 1 7 (by decide) rfl
  have hreach : LMS.FacReach 2 LMS.facS5 :=
    Relation.ReflTransGen.tail
      (Relation.ReflTransGen.tail
        (Relation.ReflTransGen.tail
          (Relation.ReflTransGen.tail
            (Relation.ReflTransGen.tail Relation.ReflTransGen.refl r01)
            r12) r23) r34) r45
  have h := C3_singleton_at_most_one_construction 2 LMS.facS5
    (by decide) hreach
  exact ⟨by decide, h.1,
    h.2.2 (fun c => ⟨7, by fin_cases c <;> decide⟩), fun c => by
      fin_cases c <;> decide⟩
